import Mathlib

/-!
Verification of the adjacency-list computation of the Urban Network Analysis
toolbox (`Adjacency_List_Computation.py`).

The development shallowly embeds the parts of `compute_adjacency_list` that the
properties below speak about:

* the barrier-cost assigner (source lines 83-106),
* the cutoff-radius formula (line 134),
* the raster tiler's cell-size computation (lines 146-150),
* the per-tile batch driver: layer selections, OD sub-layer loading, the solve,
  and the assembler's distance correction (lines 180-242),
* the run-level control flow: network-source validation, preprocessing skips,
  stale-artifact deletion, the tile loop and the final rename
  (lines 39-75, 108-131, 177-248).

Python floats are modelled as exact rationals.  The external network-analysis
engine (arcpy) and the constants module are not part of the repository source;
where a definition stands in for them it is marked `Modelled from the spec:`.
-/

namespace UNA

/-- A row of `input_points`: the value of the id attribute, the snapped network
location `(SnapX, SnapY)`, and the `BARRIER_COST_FIELD` value (a DOUBLE column,
modelled as an exact rational). -/
structure Pt where
  id : ℕ
  snap : ℚ × ℚ
  barrierCost : ℚ
deriving DecidableEq, Repr

/-- Source lines 83-96: the dictionary `xy_count` of frequencies of
`(SnapX, SnapY)` values over all rows of `input_points`. -/
def xyCount (pts : List Pt) (xy : ℚ × ℚ) : ℕ :=
  pts.countP (fun p => decide (p.snap = xy))

/-- Source lines 99-105: the second cursor pass sets
`BARRIER_COST_FIELD := BARRIER_COST / xy_count[(SnapX, SnapY)]` on every row.
`B` is the constant `BARRIER_COST` of the (external) constants module. -/
def assignBarrierCosts (B : ℚ) (pts : List Pt) : List Pt :=
  pts.map (fun p => { p with barrierCost := B / (xyCount pts p.snap : ℚ) })

/-- Source line 134: `cutoff_radius = 2 * BARRIER_COST + min(search_radius,
BARRIER_COST / 2)`. -/
def cutoffRadius (B searchRadius : ℚ) : ℚ :=
  2 * B + min searchRadius (B / 2)

/-- Source line 148: `max(1, input_point_count / POINTS_PER_RASTER_CELL)`;
Python 2 `/` on ints is floor division, as is `Nat.div`. -/
def rasterCellCount (N P : ℕ) : ℕ :=
  max 1 (N / P)

/-- Source line 149: `extent.width * extent.height / raster_cell_count`. -/
def rasterCellArea (width height : ℚ) (cellCount : ℕ) : ℚ :=
  width * height / (cellCount : ℚ)

/-- Source line 150: `int(sqrt(raster_cell_area))`.  For a nonnegative
argument, truncating the real square root to an integer is the same as taking
`Nat.sqrt` of the floor (proved in `rasterCellSize_le_sqrt` below). -/
def rasterCellSize (area : ℚ) : ℕ :=
  Nat.sqrt ⌊area⌋.toNat

/-! Helper lemmas about the barrier-cost assignment. -/

/-- The cost assignment only rewrites `barrierCost`; filtering the updated rows
by snapped location is filtering the original rows. -/
theorem assignBarrierCosts_filter (B : ℚ) (pts : List Pt) (xy : ℚ × ℚ) :
    (assignBarrierCosts B pts).filter (fun p => decide (p.snap = xy)) =
      (pts.filter (fun p => decide (p.snap = xy))).map
        (fun p => { p with barrierCost := B / (xyCount pts p.snap : ℚ) }) := by
  simp [assignBarrierCosts, List.filter_map]
  rfl

/-- Size of a colocated group: the filter by a snapped location has length
`xyCount`. -/
theorem length_filter_snap (pts : List Pt) (xy : ℚ × ℚ) :
    (pts.filter (fun p => decide (p.snap = xy))).length = xyCount pts xy := by
  simp [xyCount, List.countP_eq_length_filter]

/-- Sum of the assigned costs over one colocated group is the whole budget. -/
theorem sum_assigned_colocated (B : ℚ) (pts : List Pt) (xy : ℚ × ℚ)
    (hk : 0 < xyCount pts xy) :
    (((assignBarrierCosts B pts).filter (fun p => decide (p.snap = xy))).map
        Pt.barrierCost).sum = B := by
  rw [assignBarrierCosts_filter, List.map_map]
  have hmap :
      (pts.filter (fun p => decide (p.snap = xy))).map
          (Pt.barrierCost ∘ fun p => { p with barrierCost := B / (xyCount pts p.snap : ℚ) }) =
        (pts.filter (fun p => decide (p.snap = xy))).map
          (fun _ => B / (xyCount pts xy : ℚ)) := by
    apply List.map_congr_left
    intro p hp
    have hsnap : p.snap = xy := by
      have := (List.mem_filter.mp hp).2
      simpa using this
    simp [Function.comp, hsnap]
  rw [hmap, List.map_const', List.sum_replicate, length_filter_snap]
  have hk' : (xyCount pts xy : ℚ) ≠ 0 := by
    exact_mod_cast Nat.pos_iff_ne_zero.mp hk
  rw [nsmul_eq_mul, mul_div_cancel₀ _ hk']

/-- C4: after barrier-cost assignment, every group of `k` entities whose
snapped coordinates are exactly equal (`k = xyCount pts xy`) has each member's
`barrier_cost` equal to `BARRIER_COST / k`, every assigned cost strictly
positive, and the sum of the `k` assigned costs equal to `BARRIER_COST`
exactly. -/
theorem barrier_cost_equal_share_pos_sum (B : ℚ) (pts : List Pt) (xy : ℚ × ℚ)
    (hB : 0 < B) (hk : 0 < xyCount pts xy) :
    ((assignBarrierCosts B pts).filter (fun p => decide (p.snap = xy))).length
        = xyCount pts xy
    ∧ (∀ p ∈ (assignBarrierCosts B pts).filter (fun p => decide (p.snap = xy)),
        p.barrierCost = B / (xyCount pts xy : ℚ) ∧ 0 < p.barrierCost)
    ∧ (((assignBarrierCosts B pts).filter (fun p => decide (p.snap = xy))).map
        Pt.barrierCost).sum = B := by
  refine ⟨?_, ?_, sum_assigned_colocated B pts xy hk⟩
  · rw [assignBarrierCosts_filter, List.length_map, length_filter_snap]
  · intro p hp
    rw [assignBarrierCosts_filter] at hp
    obtain ⟨q, hq, rfl⟩ := List.mem_map.mp hp
    have hsnap : q.snap = xy := by
      have := (List.mem_filter.mp hq).2
      simpa using this
    have hcost : ({ q with barrierCost := B / (xyCount pts q.snap : ℚ) } : Pt).barrierCost
        = B / (xyCount pts xy : ℚ) := by
      simp [hsnap]
    refine ⟨hcost, ?_⟩
    rw [hcost]
    exact div_pos hB (by exact_mod_cast hk)

/-- Witness for `barrier_cost_equal_share_pos_sum`: two entities colocated at
`(1, 1)` with `BARRIER_COST = 10` each get cost `10 / 2 = 5 > 0`, summing to
`10`. -/
theorem barrier_cost_equal_share_pos_sum_witness :
    (0:ℚ) < 10 ∧ 0 < xyCount [Pt.mk 0 (1, 1) 0, Pt.mk 1 (1, 1) 0] (1, 1)
    ∧ (((assignBarrierCosts 10 [Pt.mk 0 (1, 1) 0, Pt.mk 1 (1, 1) 0]).filter
          (fun p => decide (p.snap = (1, 1)))).length
        = xyCount [Pt.mk 0 (1, 1) 0, Pt.mk 1 (1, 1) 0] (1, 1)
      ∧ (∀ p ∈ (assignBarrierCosts 10 [Pt.mk 0 (1, 1) 0, Pt.mk 1 (1, 1) 0]).filter
            (fun p => decide (p.snap = (1, 1))),
          p.barrierCost = 10 / (xyCount [Pt.mk 0 (1, 1) 0, Pt.mk 1 (1, 1) 0] (1, 1) : ℚ)
          ∧ 0 < p.barrierCost)
      ∧ (((assignBarrierCosts 10 [Pt.mk 0 (1, 1) 0, Pt.mk 1 (1, 1) 0]).filter
            (fun p => decide (p.snap = (1, 1)))).map Pt.barrierCost).sum = 10) :=
  ⟨by norm_num, by decide,
    barrier_cost_equal_share_pos_sum 10 _ _ (by norm_num) (by decide)⟩

/-- C2 counterexample: with `BARRIER_COST = 100` and `search_radius = 100`, the
cutoff is `2 * 100 + min 100 50 = 250`, strictly below
`search_radius + 2 * BARRIER_COST = 300`: the claimed bound fails for this
value of the search radius. -/
theorem cutoff_radius_not_admitting_all :
    ¬ (100 + 2 * 100 ≤ cutoffRadius 100 100) := by
  rw [cutoffRadius]
  norm_num [min_def]

/-- C2 amended: the cutoff radius equals
`2 * BARRIER_COST + min(search_radius, BARRIER_COST / 2)`; whenever
`search_radius ≤ BARRIER_COST / 2`, this cutoff admits every pair whose
barrier-free distance is at most `search_radius` plus the `2 * BARRIER_COST`
barrier overhead. -/
theorem cutoff_radius_formula_and_bound (B r : ℚ) (h : r ≤ B / 2) :
    cutoffRadius B r = 2 * B + min r (B / 2) ∧ r + 2 * B ≤ cutoffRadius B r := by
  refine ⟨rfl, ?_⟩
  rw [cutoffRadius, min_eq_left h]
  linarith

/-- Witness for `cutoff_radius_formula_and_bound` at `BARRIER_COST = 100`,
`search_radius = 50`. -/
theorem cutoff_radius_formula_and_bound_witness :
    (50:ℚ) ≤ 100 / 2
    ∧ (cutoffRadius 100 50 = 2 * 100 + min 50 (100 / 2)
        ∧ (50:ℚ) + 2 * 100 ≤ cutoffRadius 100 50) :=
  ⟨by norm_num, cutoff_radius_formula_and_bound 100 50 (by norm_num)⟩

/-- Bracketing of the truncated square root of line 150: for a nonnegative
area, `int(sqrt(area))` is the integer part of the real square root. -/
theorem rasterCellSize_sqrt_bounds (a : ℚ) (ha : 0 ≤ a) :
    (rasterCellSize a : ℝ) ≤ Real.sqrt (a : ℝ)
    ∧ Real.sqrt (a : ℝ) < rasterCellSize a + 1 := by
  have hfl : (0:ℤ) ≤ ⌊a⌋ := Int.floor_nonneg.mpr ha
  have hcast : ((⌊a⌋.toNat : ℤ) : ℚ) = (⌊a⌋ : ℚ) := by
    rw [Int.toNat_of_nonneg hfl]
  have hma : ((⌊a⌋.toNat : ℚ)) ≤ a := by
    calc ((⌊a⌋.toNat : ℚ)) = ((⌊a⌋ : ℚ)) := by exact_mod_cast hcast
    _ ≤ a := Int.floor_le a
  have ham : a < (⌊a⌋.toNat : ℚ) + 1 := by
    calc a < (⌊a⌋ : ℚ) + 1 := Int.lt_floor_add_one a
    _ = (⌊a⌋.toNat : ℚ) + 1 := by exact_mod_cast congrArg (· + (1:ℚ)) hcast.symm
  constructor
  · calc (rasterCellSize a : ℝ) = (Nat.sqrt ⌊a⌋.toNat : ℝ) := rfl
      _ ≤ Real.sqrt ((⌊a⌋.toNat : ℕ) : ℝ) := Real.nat_sqrt_le_real_sqrt
      _ ≤ Real.sqrt (a : ℝ) := Real.sqrt_le_sqrt (by exact_mod_cast hma)
  · have hlt : ((⌊a⌋.toNat : ℕ) : ℝ) < ((rasterCellSize a : ℕ) + 1 : ℕ) ^ 2 := by
      exact_mod_cast Nat.lt_succ_sqrt' ⌊a⌋.toNat
    have hpos : (0:ℝ) < (rasterCellSize a : ℝ) + 1 := by positivity
    rw [show ((rasterCellSize a : ℝ) + 1) = (((rasterCellSize a : ℕ) + 1 : ℕ) : ℝ) by
      push_cast; ring]
    refine (Real.sqrt_lt' (by exact_mod_cast hpos)).mpr ?_
    have haR : (a : ℝ) < ((⌊a⌋.toNat : ℕ) : ℝ) + 1 := by exact_mod_cast ham
    calc (a : ℝ) < ((⌊a⌋.toNat : ℕ) : ℝ) + 1 := haR
      _ ≤ (((rasterCellSize a : ℕ) + 1 : ℕ) : ℝ) ^ 2 := by
          have : ((⌊a⌋.toNat : ℕ) : ℝ) + 1 ≤ ((((rasterCellSize a : ℕ) + 1 : ℕ) : ℝ)) ^ 2 := by
            have hnat : ⌊a⌋.toNat + 1 ≤ ((rasterCellSize a : ℕ) + 1) ^ 2 :=
              Nat.succ_le_of_lt (Nat.lt_succ_sqrt' ⌊a⌋.toNat)
            exact_mod_cast hnat
          exact this

/-- C7 counterexample: with `N = 1000`, `P = 100`, extent `10 × 5`, the cell
count is `10` and the cell area `5`, but the code's cell size
`int(sqrt(5)) = 2` is not `sqrt(5)`: the claimed exact-square-root cell size
fails. -/
theorem raster_cell_size_not_exact_sqrt :
    rasterCellCount 1000 100 = 10
    ∧ rasterCellArea 10 5 (rasterCellCount 1000 100) = 5
    ∧ (rasterCellSize (rasterCellArea 10 5 (rasterCellCount 1000 100)) : ℝ)
        ≠ Real.sqrt ((rasterCellArea 10 5 (rasterCellCount 1000 100) : ℚ) : ℝ) := by
  have hcount : rasterCellCount 1000 100 = 10 := rfl
  have harea : rasterCellArea 10 5 (rasterCellCount 1000 100) = 5 := by
    rw [hcount, rasterCellArea]
    norm_num
  refine ⟨hcount, harea, ?_⟩
  rw [harea]
  have hfloor : ⌊(5:ℚ)⌋ = 5 := by norm_num
  have hsize : rasterCellSize 5 = 2 := by
    rw [rasterCellSize, hfloor, show Int.toNat 5 = 5 from rfl]
    norm_num
  rw [hsize]
  intro h
  have h5 : Real.sqrt ((5:ℚ) : ℝ) ^ 2 = ((5:ℚ) : ℝ) := Real.sq_sqrt (by norm_num)
  rw [← h] at h5
  norm_num at h5

/-- C7 amended: the tiler computes `cell_count = max(1, N / P)` with integer
division (so `N = 1000`, `P = 100` gives `10`),
`cell_area = width * height / cell_count`, and a square cell size equal to the
integer truncation of `sqrt(cell_area)`:
`cell_size ≤ sqrt(cell_area) < cell_size + 1`. -/
theorem raster_cell_size_floor_sqrt (N P : ℕ) (w h : ℚ) (hwh : 0 ≤ w * h) :
    rasterCellCount N P = max 1 (N / P)
    ∧ rasterCellCount 1000 100 = 10
    ∧ (rasterCellSize (rasterCellArea w h (rasterCellCount N P)) : ℝ)
        ≤ Real.sqrt ((rasterCellArea w h (rasterCellCount N P) : ℚ) : ℝ)
    ∧ Real.sqrt ((rasterCellArea w h (rasterCellCount N P) : ℚ) : ℝ)
        < rasterCellSize (rasterCellArea w h (rasterCellCount N P)) + 1 := by
  have hpos : (0:ℚ) ≤ rasterCellArea w h (rasterCellCount N P) := by
    rw [rasterCellArea]
    positivity
  obtain ⟨h1, h2⟩ := rasterCellSize_sqrt_bounds _ hpos
  exact ⟨rfl, rfl, h1, h2⟩

/-- Witness for `raster_cell_size_floor_sqrt` with `N = 1000`, `P = 100`,
extent `10 × 5`. -/
theorem raster_cell_size_floor_sqrt_witness :
    (0:ℚ) ≤ 10 * 5
    ∧ (rasterCellCount 1000 100 = max 1 (1000 / 100)
      ∧ rasterCellCount 1000 100 = 10
      ∧ (rasterCellSize (rasterCellArea 10 5 (rasterCellCount 1000 100)) : ℝ)
          ≤ Real.sqrt ((rasterCellArea 10 5 (rasterCellCount 1000 100) : ℚ) : ℝ)
      ∧ Real.sqrt ((rasterCellArea 10 5 (rasterCellCount 1000 100) : ℚ) : ℝ)
          < rasterCellSize (rasterCellArea 10 5 (rasterCellCount 1000 100)) + 1) :=
  ⟨by norm_num, raster_cell_size_floor_sqrt 1000 100 10 5 (by norm_num)⟩

/-- The contents of the three OD-layer sub-layers after the `AddLocations_na`
calls of one tile iteration.  `append="CLEAR"` makes each call replace its
sub-layer's contents with the currently selected features of
`input_points_layer`; a point-barrier row carries the entity's
`BARRIER_COST_FIELD` value mapped onto `Attr_<impedance_attribute>` (the
added-cost penalty), per the field mappings of lines 213-215. -/
structure ODSubLayers where
  origins : List Pt
  destinations : List Pt
  barriers : List Pt
deriving DecidableEq, Repr

/-- Source lines 201-215 for one tile: the two `SelectLayerByLocation` calls
and the three `add_locations` calls, threading the selection state of
`input_points_layer` (an arcpy geoprocessing tool applied to a feature layer
processes exactly the layer's currently selected features).  `inTile e` models
intersection with the selected tile polygon (line 202, no search_distance);
`nearTile e` models intersection with the tile polygon buffered by
`max_neighbor_separation` (lines 207-209).  No new selection is made between
`add_locations("Destinations")` (line 210) and
`add_locations("Point Barriers")` (line 213), so the barrier call sees the
still-active buffered destination selection. -/
def loadTileLocations (pts : List Pt) (inTile nearTile : Pt → Bool) : ODSubLayers :=
  let sel₁ := pts.filter inTile
  let origins := sel₁
  let sel₂ := pts.filter nearTile
  let destinations := sel₂
  let barriers := sel₂
  ⟨origins, destinations, barriers⟩

/-- A row of `od_cost_matrix_lines`: the composite `Name` (the engine names
each result `"<origin id> - <destination id>"`, and lines 222-227 parse the two
ids back out of it with `split(' - ')`; the encode/parse pair is modelled as a
pair with its two projections), the `Total_<impedance_attribute>` value, and
the `Total_<accumulator>` values. -/
structure ODLine where
  name : ℕ × ℕ
  total : ℚ
  accums : List ℚ
deriving DecidableEq, Repr

/-- Total added-cost penalty the loaded point barriers impose at one network
location: each barrier blocks exactly its own point with its
`Attr_<impedance>` value, so a path through the location pays the sum of the
colocated barriers' costs. -/
def barrierPenalty (barriers : List Pt) (xy : ℚ × ℚ) : ℚ :=
  ((barriers.filter (fun b => decide (b.snap = xy))).map Pt.barrierCost).sum

/-- Modelled from the spec: `arcpy.Solve_na` on the OD cost matrix layer
(lines 217-219) is the external network-analysis engine, absent from the
repository source.  Per §4.3 steps 5-6, §6's capability contract and §8's
round-trip property, it reports, for each loaded origin and destination at
distinct network locations, a named least-cost path whose raw impedance total
is the barrier-free network distance plus the added-cost barrier penalties at
the origin's and the destination's locations, kept only when it does not
exceed the cutoff (`default_cutoff`, line 140); degenerate same-location pairs
are suppressed (§4.1's neutralization, §8's colocated scenario).  `trueDist`
is the barrier-free network distance between snapped locations and `accDist`
the analogous accumulator totals. -/
def solveODMatrix (trueDist : ℚ × ℚ → ℚ × ℚ → ℚ)
    (accDist : List (ℚ × ℚ → ℚ × ℚ → ℚ)) (cutoff : ℚ)
    (layers : ODSubLayers) : List ODLine :=
  layers.origins.flatMap (fun o =>
    layers.destinations.filterMap (fun d =>
      if o.snap = d.snap then none
      else if trueDist o.snap d.snap + barrierPenalty layers.barriers o.snap
          + barrierPenalty layers.barriers d.snap ≤ cutoff then
        some ⟨(o.id, d.id),
          trueDist o.snap d.snap + barrierPenalty layers.barriers o.snap
            + barrierPenalty layers.barriers d.snap,
          accDist.map (fun f => f o.snap d.snap)⟩
      else none))

/-- A row of the adjacency list after lines 221-234: the parsed origin and
destination ids, the corrected distance, and the untouched accumulator
totals. -/
structure AdjRow where
  originID : ℕ
  destinationID : ℕ
  distance : ℚ
  accums : List ℚ
deriving DecidableEq, Repr

/-- Source lines 221-234: the two `CalculateField_management` calls that parse
`Name.split(' - ')` into the origin and destination id fields, and the one
that replaces `Total_<impedance_attribute>` with
`Total_<impedance_attribute> - 2 * BARRIER_COST`; every other field of the
record is left as the engine wrote it. -/
def assembleLines (B : ℚ) (lines : List ODLine) : List AdjRow :=
  lines.map (fun l => ⟨l.name.1, l.name.2, l.total - 2 * B, l.accums⟩)

/-- One iteration of the per-tile loop (source lines 180-242): select and load
the sub-layers, solve, parse the ids and correct the distance. -/
def processTile (B : ℚ) (trueDist : ℚ × ℚ → ℚ × ℚ → ℚ)
    (accDist : List (ℚ × ℚ → ℚ × ℚ → ℚ)) (cutoff : ℚ)
    (pts : List Pt) (inTile nearTile : Pt → Bool) : List AdjRow :=
  assembleLines B (solveODMatrix trueDist accDist cutoff
    (loadTileLocations pts inTile nearTile))

/-- C1 counterexample: with two entities, a tile containing only entity 0 and
a `max_neighbor_separation` buffer that still excludes entity 1, the point
barriers loaded before the solve are just entity 0's row — not the entire
global entity set. -/
theorem tile_barriers_not_global_set :
    (loadTileLocations [Pt.mk 0 (0, 0) 1, Pt.mk 1 (5, 5) 1]
        (fun e => e.id == 0) (fun e => e.id == 0)).barriers
      ≠ [Pt.mk 0 (0, 0) 1, Pt.mk 1 (5, 5) 1] := by
  decide

/-- C1 amended: for every tile, the point barriers added before the solve are
exactly the entities of the still-active destination selection — those within
`max_neighbor_separation` of the tile — each carrying its `barrier_cost`
as the added-cost penalty on the impedance attribute; the barrier set
coincides with the destination set, not with the global entity set. -/
theorem tile_barriers_eq_buffered_selection (pts : List Pt)
    (inTile nearTile : Pt → Bool) :
    (loadTileLocations pts inTile nearTile).barriers = pts.filter nearTile
    ∧ (loadTileLocations pts inTile nearTile).barriers
        = (loadTileLocations pts inTile nearTile).destinations
    ∧ ((loadTileLocations pts inTile nearTile).barriers.map
        (fun b => (b.id, b.barrierCost)))
        = (pts.filter nearTile).map (fun b => (b.id, b.barrierCost)) :=
  ⟨rfl, rfl, rfl⟩

/-- C3: for every solved result record, the assembler's corrected distance is
the raw engine-reported impedance total minus exactly `2 * BARRIER_COST`, and
the accumulated attributes are carried into the output unmodified. -/
theorem assembler_corrects_distance_preserves_accums (B : ℚ) (lines : List ODLine) :
    (assembleLines B lines).map (fun r => (r.distance, r.accums))
      = lines.map (fun l => (l.total - 2 * B, l.accums)) := by
  simp [assembleLines]

/-- Shape of a tile-output row: it arises from an origin of the tile selection
and a destination of the buffered selection at distinct locations, with the
corrected distance equal to the raw total minus `2 * BARRIER_COST`. -/
theorem exists_pair_of_mem_processTile (B : ℚ) (trueDist : ℚ × ℚ → ℚ × ℚ → ℚ)
    (accDist : List (ℚ × ℚ → ℚ × ℚ → ℚ)) (cutoff : ℚ)
    (pts : List Pt) (inTile nearTile : Pt → Bool) (r : AdjRow)
    (hr : r ∈ processTile B trueDist accDist cutoff pts inTile nearTile) :
    ∃ o ∈ pts.filter inTile, ∃ d ∈ pts.filter nearTile,
      o.snap ≠ d.snap
      ∧ r.originID = o.id ∧ r.destinationID = d.id
      ∧ r.distance = trueDist o.snap d.snap
          + barrierPenalty (pts.filter nearTile) o.snap
          + barrierPenalty (pts.filter nearTile) d.snap - 2 * B := by
  simp only [processTile, assembleLines, List.mem_map] at hr
  obtain ⟨l, hl, rfl⟩ := hr
  simp only [solveODMatrix, loadTileLocations, List.mem_flatMap, List.mem_filterMap] at hl
  obtain ⟨o, ho, d, hd, heq⟩ := hl
  by_cases hsnap : o.snap = d.snap
  · rw [if_pos hsnap] at heq
    exact absurd heq (by simp)
  · rw [if_neg hsnap] at heq
    by_cases hcut : trueDist o.snap d.snap + barrierPenalty (pts.filter nearTile) o.snap
        + barrierPenalty (pts.filter nearTile) d.snap ≤ cutoff
    · rw [if_pos hcut] at heq
      obtain rfl := Option.some.inj heq
      exact ⟨o, ho, d, hd, hsnap, rfl, rfl, rfl⟩
    · rw [if_neg hcut] at heq
      exact absurd heq (by simp)

/-- When the active barrier selection contains every entity colocated at `xy`,
the added-cost penalty paid there is the whole `BARRIER_COST`. -/
theorem barrierPenalty_full_group (B : ℚ) (pts : List Pt) (near : Pt → Bool)
    (xy : ℚ × ℚ)
    (hnear : ∀ p ∈ assignBarrierCosts B pts, p.snap = xy → near p = true)
    (hk : 0 < xyCount pts xy) :
    barrierPenalty ((assignBarrierCosts B pts).filter near) xy = B := by
  rw [barrierPenalty]
  have hfil : ((assignBarrierCosts B pts).filter near).filter
        (fun b => decide (b.snap = xy))
      = (assignBarrierCosts B pts).filter (fun b => decide (b.snap = xy)) := by
    rw [List.filter_filter]
    apply List.filter_congr
    intro p hp
    by_cases h : p.snap = xy
    · simp [h, hnear p hp h]
    · simp [h]
  rw [hfil]
  exact sum_assigned_colocated B pts xy hk

/-- Membership in the cost-assigned rows locates a witness in the original
rows at the same snapped location. -/
theorem xyCount_pos_of_mem_assign (B : ℚ) (pts : List Pt) (p : Pt)
    (hp : p ∈ assignBarrierCosts B pts) : 0 < xyCount pts p.snap := by
  rw [assignBarrierCosts] at hp
  obtain ⟨q, hq, rfl⟩ := List.mem_map.mp hp
  rw [xyCount]
  refine List.countP_pos_iff.mpr ⟨q, hq, by simp⟩

/-- C5: every row of a tile's corrected output has nonnegative distance.  The
input points carry the costs the barrier-cost assigner computed; the spatial
selections are location-determined (colocated entities are selected together)
and the buffered destination selection contains the tile; the barrier-free
network distance is nonnegative. -/
theorem tile_output_distance_nonneg (B : ℚ)
    (trueDist : ℚ × ℚ → ℚ × ℚ → ℚ) (hdist : ∀ x y, 0 ≤ trueDist x y)
    (accDist : List (ℚ × ℚ → ℚ × ℚ → ℚ)) (cutoff : ℚ)
    (pts : List Pt) (inTile nearTile : Pt → Bool)
    (hloc : ∀ p ∈ assignBarrierCosts B pts, ∀ q ∈ assignBarrierCosts B pts,
        p.snap = q.snap → nearTile p = nearTile q)
    (hsub : ∀ p, inTile p = true → nearTile p = true) :
    ∀ r ∈ processTile B trueDist accDist cutoff (assignBarrierCosts B pts)
        inTile nearTile, 0 ≤ r.distance := by
  intro r hr
  obtain ⟨o, ho, d, hd, hsnap, _, _, hdistEq⟩ :=
    exists_pair_of_mem_processTile B trueDist accDist cutoff
      (assignBarrierCosts B pts) inTile nearTile r hr
  have ho' := List.mem_filter.mp ho
  have hd' := List.mem_filter.mp hd
  have hno : nearTile o = true := hsub o ho'.2
  have hPo : barrierPenalty ((assignBarrierCosts B pts).filter nearTile) o.snap = B := by
    refine barrierPenalty_full_group B pts nearTile o.snap ?_
      (xyCount_pos_of_mem_assign B pts o ho'.1)
    intro p hp hps
    calc nearTile p = nearTile o := hloc p hp o ho'.1 hps
      _ = true := hno
  have hPd : barrierPenalty ((assignBarrierCosts B pts).filter nearTile) d.snap = B := by
    refine barrierPenalty_full_group B pts nearTile d.snap ?_
      (xyCount_pos_of_mem_assign B pts d hd'.1)
    intro p hp hps
    calc nearTile p = nearTile d := hloc p hp d hd'.1 hps
      _ = true := hd'.2
  rw [hdistEq, hPo, hPd]
  have := hdist o.snap d.snap
  linarith

/-- Witness for `tile_output_distance_nonneg`: two entities at distinct
locations, both selected, unit distances, cutoff 1000, `BARRIER_COST = 10`. -/
theorem tile_output_distance_nonneg_witness :
    (∀ x y : ℚ × ℚ, (0:ℚ) ≤ (fun _ _ => (1:ℚ)) x y)
    ∧ ∀ r ∈ processTile 10 (fun _ _ => 1) [] 1000
        (assignBarrierCosts 10 [Pt.mk 0 (0, 0) 0, Pt.mk 1 (3, 3) 0])
        (fun _ => true) (fun _ => true), 0 ≤ r.distance :=
  ⟨fun _ _ => by norm_num,
    tile_output_distance_nonneg 10 (fun _ _ => 1)
      (fun _ _ => by norm_num) [] 1000 [Pt.mk 0 (0, 0) 0, Pt.mk 1 (3, 3) 0]
      (fun _ => true) (fun _ => true)
      (fun p _ q _ _ => rfl) (fun p _ => rfl)⟩

/-- C6: no tile-output row has equal origin and destination ids (the id
attribute distinguishes input points: entities with equal id values share
their snapped location, per the tool's contract on `id_attribute`); moreover
two entities colocated at the same network location never yield an adjacency
edge between themselves. -/
theorem tile_output_no_self_loops (B : ℚ) (trueDist : ℚ × ℚ → ℚ × ℚ → ℚ)
    (accDist : List (ℚ × ℚ → ℚ × ℚ → ℚ)) (cutoff : ℚ)
    (pts : List Pt) (inTile nearTile : Pt → Bool)
    (hid : ∀ p ∈ pts, ∀ q ∈ pts, p.id = q.id → p.snap = q.snap) :
    (∀ r ∈ processTile B trueDist accDist cutoff pts inTile nearTile,
      r.originID ≠ r.destinationID)
    ∧ (∀ p ∈ pts, ∀ q ∈ pts, p.snap = q.snap →
        ∀ r ∈ processTile B trueDist accDist cutoff pts inTile nearTile,
          ¬(r.originID = p.id ∧ r.destinationID = q.id)) := by
  constructor
  · intro r hr
    obtain ⟨o, ho, d, hd, hsnap, hoid, hdid, _⟩ :=
      exists_pair_of_mem_processTile B trueDist accDist cutoff pts inTile nearTile r hr
    rw [hoid, hdid]
    intro h
    exact hsnap (hid o (List.mem_of_mem_filter ho) d (List.mem_of_mem_filter hd) h)
  · intro p hp q hq hpq r hr ⟨hrp, hrq⟩
    obtain ⟨o, ho, d, hd, hsnap, hoid, hdid, _⟩ :=
      exists_pair_of_mem_processTile B trueDist accDist cutoff pts inTile nearTile r hr
    have hop : o.snap = p.snap :=
      hid o (List.mem_of_mem_filter ho) p hp (hoid ▸ hrp)
    have hdq : d.snap = q.snap :=
      hid d (List.mem_of_mem_filter hd) q hq (hdid ▸ hrq)
    exact hsnap (by rw [hop, hdq, hpq])

/-- Witness for `tile_output_no_self_loops`: two entities with distinct ids at
distinct locations. -/
theorem tile_output_no_self_loops_witness :
    (∀ p ∈ [Pt.mk 0 (0, 0) 1, Pt.mk 1 (3, 3) 1],
      ∀ q ∈ [Pt.mk 0 (0, 0) 1, Pt.mk 1 (3, 3) 1], p.id = q.id → p.snap = q.snap)
    ∧ ((∀ r ∈ processTile 10 (fun _ _ => 1) [] 1000
          [Pt.mk 0 (0, 0) 1, Pt.mk 1 (3, 3) 1] (fun _ => true) (fun _ => true),
        r.originID ≠ r.destinationID)
      ∧ (∀ p ∈ [Pt.mk 0 (0, 0) 1, Pt.mk 1 (3, 3) 1],
          ∀ q ∈ [Pt.mk 0 (0, 0) 1, Pt.mk 1 (3, 3) 1], p.snap = q.snap →
          ∀ r ∈ processTile 10 (fun _ _ => 1) [] 1000
              [Pt.mk 0 (0, 0) 1, Pt.mk 1 (3, 3) 1] (fun _ => true) (fun _ => true),
            ¬(r.originID = p.id ∧ r.destinationID = q.id))) :=
  ⟨by decide,
    tile_output_no_self_loops 10 (fun _ _ => 1) [] 1000
      [Pt.mk 0 (0, 0) 1, Pt.mk 1 (3, 3) 1] (fun _ => true) (fun _ => true)
      (by decide)⟩

/-! Run-level control flow (lines 39-259): source validation, preprocessing
skips, artifact bookkeeping, the tile loop, the final rename and cleanup. -/

/-- Modelled from the spec: the edge-typed sourceType constant of
`Constants.py` (not under src/); §6 requires the network to expose an
edge-typed component. -/
def EDGE_FEATURE : String := "EdgeFeature"

/-- Modelled from the spec: the collection of junction-typed sourceType values
of `Constants.py` (not under src/); §6 requires a junction-typed component. -/
def JUNCTION_FEATURE : List String := ["JunctionFeature", "SystemJunction"]

/-- Modelled from the spec: the network-location fields of `Constants.py` (not
under src/) that the location resolver writes on each point (§2). -/
def NETWORK_LOCATION_FIELDS : List String :=
  ["SourceID", "SourceOID", "PosAlong", "SideOfEdge", "SnapX", "SnapY"]

/-- Modelled from the spec: the (trimmed) barrier-cost field name of
`Constants.py` (not under src/). -/
def BARRIER_COST_FIELD : String := "BarrierCos"

/-- Modelled from the spec: the auxiliary directory and file names of
`Constants.py` (not under src/); only their identities matter here. -/
def AUXILIARY_DIR_NAME : String := "una_auxiliary"

def OD_COST_MATRIX_LAYER_NAME : String := "od_cost_matrix_layer"

def OD_COST_MATRIX_LINES : String := "Lines"

def PART_ADJ_LIST_NAME : String := "part_adjacency_list.dbf"

def POLYGONS_SHAPEFILE_NAME : String := "polygons.shp"

def RASTER_NAME : String := "raster"

def POLYGONS_LAYER_NAME : String := "polygons_layer"

def INPUT_POINTS_LAYER_NAME : String := "input_points_layer"

/-- A source of the network dataset, as `Describe(input_network).sources`
exposes it: its name and its sourceType value. -/
structure NetworkSource where
  name : String
  sourceType : String
deriving DecidableEq, Repr

/-- One step of the scan of lines 49-53 over the network's sources. -/
def scanSource (acc : Option String × Option String) (s : NetworkSource) :
    Option String × Option String :=
  if s.sourceType = EDGE_FEATURE then (some s.name, acc.2)
  else if s.sourceType ∈ JUNCTION_FEATURE then (acc.1, some s.name)
  else acc

/-- Source lines 46-53: record the edge and junction source names of the
network, keeping the last source of each kind. -/
def findSourceFeatures (sources : List NetworkSource) :
    Option String × Option String :=
  sources.foldl scanSource (none, none)

/-- A filesystem path, as the list of components the source assembles with
`os.path.join`. -/
abbrev ArtifactPath := List String

/-- The environment a run reads: the network's sources and name, the fields
already present on the first input point (`UpdateCursor(input_points).next()`,
line 62), the output location and dbf name, the per-tile outcome of the
external `Solve_na` call, and the pre-existing files. -/
structure RunEnv where
  sources : List NetworkSource
  networkName : String
  firstPointFields : List String
  outputLocation : String
  adjDbfName : String
  tileSolveOk : List Bool
  fs0 : List ArtifactPath
deriving Repr

/-- The computation steps whose performance the claims observe. -/
inductive Step where
  | calculateLocations
  | assignCosts
  | solveTile (i : ℕ)
deriving DecidableEq, Repr

/-- The failures the run can surface: the `Invalid_Input_Exception` of lines
54-59 naming the offending network, or an engine failure escaping from
`Solve_na` at some tile. -/
inductive RunError where
  | invalidInput (network : String)
  | solveFailed (tile : ℕ)
deriving DecidableEq, Repr

/-- Observable state of a run: the files on disk and the performed steps. -/
structure RunState where
  fs : List ArtifactPath
  trace : List Step
deriving DecidableEq, Repr

/-- `arcpy.Delete_management` guarded by `arcpy.Exists` (lines 130-131,
250-259). -/
def fsDelete (fs : List ArtifactPath) (p : ArtifactPath) : List ArtifactPath :=
  fs.filter (fun q => decide (q ≠ p))

/-- Creation of a file or layer; with `arcpy.env.overwriteOutput = True`
(line 15) an existing file at the path is replaced. -/
def fsCreate (fs : List ArtifactPath) (p : ArtifactPath) : List ArtifactPath :=
  p :: fsDelete fs p

/-- Source line 42: `auxiliary_dir = join(output_location,
AUXILIARY_DIR_NAME)`. -/
def auxiliaryDir (env : RunEnv) : ArtifactPath :=
  [env.outputLocation, AUXILIARY_DIR_NAME]

/-- Source lines 43-44: `mkdir(auxiliary_dir)` guarded by `arcpy.Exists`. -/
def mkdirAux (env : RunEnv) (fs : List ArtifactPath) : List ArtifactPath :=
  if auxiliaryDir env ∈ fs then fs else fsCreate fs (auxiliaryDir env)

/-- Source line 109. -/
def odCostMatrixLayer (env : RunEnv) : ArtifactPath :=
  [env.outputLocation, AUXILIARY_DIR_NAME, OD_COST_MATRIX_LAYER_NAME]

/-- Source line 110. -/
def odCostMatrixLines (env : RunEnv) : ArtifactPath :=
  [env.outputLocation, AUXILIARY_DIR_NAME, OD_COST_MATRIX_LAYER_NAME,
   OD_COST_MATRIX_LINES]

/-- Source line 111: `"%s~.dbf" % adj_dbf_name[:-4]`; Python's `[:-4]` is
`String.dropRight 4`. -/
def tempAdjDbfName (env : RunEnv) : String :=
  env.adjDbfName.dropRight 4 ++ "~.dbf"

/-- Source line 112. -/
def tempAdjDbf (env : RunEnv) : ArtifactPath :=
  [env.outputLocation, tempAdjDbfName env]

/-- Source line 113: the final output path. -/
def adjDbf (env : RunEnv) : ArtifactPath :=
  [env.outputLocation, env.adjDbfName]

/-- Source line 114. -/
def partAdjDbf (env : RunEnv) : ArtifactPath :=
  [env.outputLocation, AUXILIARY_DIR_NAME, PART_ADJ_LIST_NAME]

/-- Source line 115. -/
def polygonsShp (env : RunEnv) : ArtifactPath :=
  [env.outputLocation, AUXILIARY_DIR_NAME, POLYGONS_SHAPEFILE_NAME]

/-- Source line 116. -/
def rasterPath (env : RunEnv) : ArtifactPath :=
  [env.outputLocation, AUXILIARY_DIR_NAME, RASTER_NAME]

/-- Source line 117. -/
def polygonsLayerPath (env : RunEnv) : ArtifactPath :=
  [env.outputLocation, AUXILIARY_DIR_NAME, POLYGONS_LAYER_NAME]

/-- Source line 118. -/
def inputPointsLayerPath (env : RunEnv) : ArtifactPath :=
  [env.outputLocation, AUXILIARY_DIR_NAME, INPUT_POINTS_LAYER_NAME]

/-- Source lines 121-129: the artifacts swept before the run. -/
def staleArtifacts (env : RunEnv) : List ArtifactPath :=
  [odCostMatrixLayer env, tempAdjDbf env, adjDbf env, partAdjDbf env,
   polygonsShp env, rasterPath env, polygonsLayerPath env,
   inputPointsLayerPath env, odCostMatrixLines env]

/-- Source lines 120-131: delete every stale artifact that exists. -/
def deleteStale (env : RunEnv) (fs : List ArtifactPath) : List ArtifactPath :=
  (staleArtifacts env).foldl fsDelete fs

/-- Source lines 137-175: the files created before the tile loop — the OD cost
matrix layer with its Lines sub-table, the raster, the polygons, the empty
temporary adjacency dbf, and the two feature layers. -/
def preLoopCreates (env : RunEnv) : List ArtifactPath :=
  [odCostMatrixLayer env, odCostMatrixLines env, rasterPath env,
   polygonsShp env, tempAdjDbf env, polygonsLayerPath env,
   inputPointsLayerPath env]

/-- Creation sweep for `preLoopCreates`. -/
def createPreLoop (env : RunEnv) (fs : List ArtifactPath) : List ArtifactPath :=
  (preLoopCreates env).foldl fsCreate fs

/-- Source lines 177-244: the per-tile loop.  A successful iteration rewrites
the partial adjacency dbf (line 237) and appends its rows to the temporary dbf
(content-level, no new path); a failing `Solve_na` raises, aborting the loop
with the filesystem as it stands. -/
def runTiles (env : RunEnv) : RunState → ℕ → List Bool → RunState × Option RunError
  | st, _, [] => (st, none)
  | st, i, ok :: rest =>
    if ok then
      runTiles env ⟨fsCreate st.fs (partAdjDbf env), st.trace ++ [Step.solveTile i]⟩
        (i + 1) rest
    else (st, some (RunError.solveFailed i))

/-- Source lines 251-257: the artifacts of the final cleanup sweep. -/
def cleanupArtifacts (env : RunEnv) : List ArtifactPath :=
  [odCostMatrixLayer env, partAdjDbf env, polygonsShp env, rasterPath env,
   polygonsLayerPath env, inputPointsLayerPath env, auxiliaryDir env]

/-- Source lines 61-106: the preprocessing steps actually performed, given the
fields already present on the first input point — location resolution unless
every network-location field is there (line 63), barrier-cost assignment
unless the barrier-cost field is there (line 74). -/
def preTrace (env : RunEnv) : List Step :=
  (if NETWORK_LOCATION_FIELDS.all (fun f => env.firstPointFields.contains f) then []
   else [Step.calculateLocations])
  ++ (if env.firstPointFields.contains BARRIER_COST_FIELD then []
      else [Step.assignCosts])

/-- Source lines 246-259 applied to the tile loop's result: a raised engine
failure propagates with the filesystem as it stands (no rename happens);
otherwise the temporary dbf is renamed to the output path
(`Rename_management`, lines 247-248) and the auxiliary artifacts are swept
(lines 250-259). -/
def finishRun (env : RunEnv) : RunState × Option RunError → RunState × Except RunError Unit
  | (st, some e) => (st, Except.error e)
  | (st, none) =>
    (⟨(cleanupArtifacts env).foldl fsDelete
        (fsCreate (fsDelete st.fs (tempAdjDbf env)) (adjDbf env)), st.trace⟩,
      Except.ok ())

/-- Lines 61-259 after a successful source validation: preprocessing,
stale-artifact deletion (lines 120-131), pre-loop creations (137-175), the
tile loop (177-244), rename and cleanup (246-259). -/
def runValidated (env : RunEnv) : RunState × Except RunError Unit :=
  finishRun env
    (runTiles env
      ⟨createPreLoop env (deleteStale env (mkdirAux env env.fs0)), preTrace env⟩
      0 env.tileSolveOk)

/-- The control-flow skeleton of `compute_adjacency_list` (lines 39-259):
auxiliary-directory creation (42-44), source validation (46-59), then the
validated run.  The data-level content of a tile is `processTile` above; here
the performed steps, the surfaced failure and the filesystem effects are
tracked. -/
def computeAdjacencyList (env : RunEnv) : RunState × Except RunError Unit :=
  let fsA := mkdirAux env env.fs0
  let ej := findSourceFeatures env.sources
  if ej.1 = none then
    (⟨fsA, []⟩, Except.error (RunError.invalidInput env.networkName))
  else if ej.2 = none then
    (⟨fsA, []⟩, Except.error (RunError.invalidInput env.networkName))
  else runValidated env

/-! Properties of the source scan, the filesystem sweeps and the tile loop. -/

/-- The scan records no edge source exactly when none is edge-typed. -/
theorem foldl_scanSource_fst_none (ss : List NetworkSource)
    (acc : Option String × Option String) :
    (ss.foldl scanSource acc).1 = none
      ↔ acc.1 = none ∧ ∀ s ∈ ss, s.sourceType ≠ EDGE_FEATURE := by
  induction ss generalizing acc with
  | nil => simp
  | cons s ss ih =>
    rw [List.foldl_cons, ih, scanSource]
    by_cases h1 : s.sourceType = EDGE_FEATURE
    · simp [h1]
    · by_cases h2 : s.sourceType ∈ JUNCTION_FEATURE
      · rw [if_neg h1, if_pos h2]
        simp +contextual [h1, and_comm, and_left_comm]
      · rw [if_neg h1, if_neg h2]
        simp +contextual [h1, and_comm, and_left_comm]

/-- The scan records no junction source exactly when none is junction-typed. -/
theorem foldl_scanSource_snd_none (ss : List NetworkSource)
    (acc : Option String × Option String) :
    (ss.foldl scanSource acc).2 = none
      ↔ acc.2 = none ∧ ∀ s ∈ ss, s.sourceType ∉ JUNCTION_FEATURE := by
  induction ss generalizing acc with
  | nil => simp
  | cons s ss ih =>
    rw [List.foldl_cons, ih, scanSource]
    by_cases h1 : s.sourceType = EDGE_FEATURE
    · have h2 : s.sourceType ∉ JUNCTION_FEATURE := by
        rw [h1]
        decide
      simp +contextual [h1, h2, and_comm, and_left_comm]
      intro _ _
      decide
    · by_cases h2 : s.sourceType ∈ JUNCTION_FEATURE
      · rw [if_neg h1, if_pos h2]
        simp [h2]
      · rw [if_neg h1, if_neg h2]
        simp +contextual [h2, and_comm, and_left_comm]

/-- Membership after a create: the created path, or a surviving old one. -/
theorem mem_fsCreate (fs : List ArtifactPath) (p q : ArtifactPath) :
    p ∈ fsCreate fs q ↔ p = q ∨ p ∈ fs := by
  rw [fsCreate, fsDelete]
  simp only [List.mem_cons, List.mem_filter, decide_eq_true_eq]
  by_cases h : p = q
  · simp [h]
  · simp [h]

/-- Membership after a deletion sweep. -/
theorem mem_foldl_fsDelete (dels : List ArtifactPath) (fs : List ArtifactPath)
    (p : ArtifactPath) :
    p ∈ dels.foldl fsDelete fs ↔ p ∈ fs ∧ p ∉ dels := by
  induction dels generalizing fs with
  | nil => simp
  | cons d ds ih =>
    rw [List.foldl_cons, ih, fsDelete]
    simp only [List.mem_filter, decide_eq_true_eq, List.mem_cons]
    by_cases h : p = d
    · simp [h]
    · simp [h]

/-- Membership after a creation sweep. -/
theorem mem_foldl_fsCreate (crs : List ArtifactPath) (fs : List ArtifactPath)
    (p : ArtifactPath) :
    p ∈ crs.foldl fsCreate fs ↔ p ∈ crs ∨ p ∈ fs := by
  induction crs generalizing fs with
  | nil => simp
  | cons c cs ih =>
    rw [List.foldl_cons, ih]
    rw [mem_fsCreate]
    simp only [List.mem_cons]
    tauto

/-- The tile loop touches no path other than the partial adjacency dbf. -/
theorem runTiles_fs_mem (env : RunEnv) (st : RunState) (i : ℕ)
    (outcomes : List Bool) (p : ArtifactPath) (hp : p ≠ partAdjDbf env) :
    (p ∈ (runTiles env st i outcomes).1.fs ↔ p ∈ st.fs) := by
  induction outcomes generalizing st i with
  | nil => rfl
  | cons ok rest ih =>
    rw [runTiles]
    by_cases h : ok = true
    · rw [if_pos h, ih]
      simp [mem_fsCreate, hp]
    · rw [if_neg h]

/-- The tile loop appends only solve steps to the trace. -/
theorem runTiles_trace_mem (env : RunEnv) (st : RunState) (i : ℕ)
    (outcomes : List Bool) (s : Step) (hs : ∀ j, s ≠ Step.solveTile j) :
    (s ∈ (runTiles env st i outcomes).1.trace ↔ s ∈ st.trace) := by
  induction outcomes generalizing st i with
  | nil => rfl
  | cons ok rest ih =>
    rw [runTiles]
    by_cases h : ok = true
    · rw [if_pos h, ih]
      simp [hs i]
    · rw [if_neg h]

/-- A failure escaping the tile loop is an engine failure at some tile. -/
theorem runTiles_err_shape (env : RunEnv) (st : RunState) (i : ℕ)
    (outcomes : List Bool) (e : RunError)
    (he : (runTiles env st i outcomes).2 = some e) :
    ∃ j, e = RunError.solveFailed j := by
  induction outcomes generalizing st i with
  | nil => exact absurd he (by simp [runTiles])
  | cons ok rest ih =>
    rw [runTiles] at he
    by_cases h : ok = true
    · rw [if_pos h] at he
      exact ih _ _ he
    · rw [if_neg h] at he
      obtain rfl := Option.some.inj he
      exact ⟨i, rfl⟩

/-- The tile loop fails exactly when some tile's solve fails. -/
theorem runTiles_fails_iff (env : RunEnv) (st : RunState) (i : ℕ)
    (outcomes : List Bool) :
    (∃ e, (runTiles env st i outcomes).2 = some e) ↔ false ∈ outcomes := by
  induction outcomes generalizing st i with
  | nil => simp [runTiles]
  | cons ok rest ih =>
    rw [runTiles]
    by_cases h : ok = true
    · rw [if_pos h, ih]
      simp [h]
    · rw [if_neg h]
      simp [Bool.not_eq_true] at h
      simp [h]

/-- The finishing step does not change the trace. -/
theorem finishRun_trace (env : RunEnv) (r : RunState × Option RunError) :
    (finishRun env r).1.trace = r.1.trace := by
  obtain ⟨st, oerr⟩ := r
  cases oerr <;> rfl

/-- A failure surfaced by the finishing step came out of the tile loop. -/
theorem finishRun_err (env : RunEnv) (r : RunState × Option RunError)
    (e : RunError) (he : (finishRun env r).2 = Except.error e) : r.2 = some e := by
  obtain ⟨st, oerr⟩ := r
  cases oerr with
  | none => exact absurd he (by simp [finishRun])
  | some f =>
    have hef : (Except.error f : Except RunError Unit) = Except.error e := he
    have : f = e := by simpa using hef
    rw [this]

/-- The validated run never surfaces the invalid-input failure: its only
failure is an engine failure at some tile. -/
theorem runValidated_not_invalid (env : RunEnv) (net : String) :
    (runValidated env).2 ≠ Except.error (RunError.invalidInput net) := by
  intro habs
  rw [runValidated] at habs
  have he := finishRun_err env _ _ habs
  obtain ⟨j, hj⟩ := runTiles_err_shape env _ 0 env.tileSolveOk _ he
  exact RunError.noConfusion hj

/-- The scan finds no edge source exactly when no source is edge-typed. -/
theorem findSourceFeatures_fst_none (ss : List NetworkSource) :
    (findSourceFeatures ss).1 = none ↔ ∀ s ∈ ss, s.sourceType ≠ EDGE_FEATURE := by
  rw [findSourceFeatures, foldl_scanSource_fst_none]
  simp

/-- The scan finds no junction source exactly when no source is
junction-typed. -/
theorem findSourceFeatures_snd_none (ss : List NetworkSource) :
    (findSourceFeatures ss).2 = none ↔ ∀ s ∈ ss, s.sourceType ∉ JUNCTION_FEATURE := by
  rw [findSourceFeatures, foldl_scanSource_snd_none]
  simp

/-- C8: the run surfaces the invalid-input failure naming the offending
network exactly when the network lacks an edge-typed source or lacks a
junction-typed source; on that failure nothing has been computed — no
preprocessing step, no tiling, no solve, and no file effect beyond the
auxiliary-directory creation of lines 42-44, which precedes the check in the
source. -/
theorem invalid_network_iff_missing_source (env : RunEnv) :
    ((computeAdjacencyList env).2 = Except.error (RunError.invalidInput env.networkName)
      ↔ (∀ s ∈ env.sources, s.sourceType ≠ EDGE_FEATURE)
        ∨ (∀ s ∈ env.sources, s.sourceType ∉ JUNCTION_FEATURE))
    ∧ (((∀ s ∈ env.sources, s.sourceType ≠ EDGE_FEATURE)
          ∨ (∀ s ∈ env.sources, s.sourceType ∉ JUNCTION_FEATURE)) →
        (computeAdjacencyList env).1 = ⟨mkdirAux env env.fs0, []⟩) := by
  by_cases h1 : (findSourceFeatures env.sources).1 = none
  · have hmiss : (∀ s ∈ env.sources, s.sourceType ≠ EDGE_FEATURE)
        ∨ (∀ s ∈ env.sources, s.sourceType ∉ JUNCTION_FEATURE) :=
      Or.inl ((findSourceFeatures_fst_none env.sources).mp h1)
    exact ⟨⟨fun _ => hmiss, fun _ => by simp [computeAdjacencyList, h1]⟩,
      fun _ => by simp [computeAdjacencyList, h1]⟩
  · by_cases h2 : (findSourceFeatures env.sources).2 = none
    · have hmiss : (∀ s ∈ env.sources, s.sourceType ≠ EDGE_FEATURE)
          ∨ (∀ s ∈ env.sources, s.sourceType ∉ JUNCTION_FEATURE) :=
        Or.inr ((findSourceFeatures_snd_none env.sources).mp h2)
      exact ⟨⟨fun _ => hmiss, fun _ => by simp [computeAdjacencyList, h1, h2]⟩,
        fun _ => by simp [computeAdjacencyList, h1, h2]⟩
    · have hvalid : ¬((∀ s ∈ env.sources, s.sourceType ≠ EDGE_FEATURE)
          ∨ (∀ s ∈ env.sources, s.sourceType ∉ JUNCTION_FEATURE)) := by
        rintro (h | h)
        · exact h1 ((findSourceFeatures_fst_none env.sources).mpr h)
        · exact h2 ((findSourceFeatures_snd_none env.sources).mpr h)
      have hrun : computeAdjacencyList env = runValidated env := by
        simp [computeAdjacencyList, h1, h2]
      refine ⟨⟨fun habs => ?_, fun hd => absurd hd hvalid⟩, fun hd => absurd hd hvalid⟩
      rw [hrun] at habs
      exact absurd habs (runValidated_not_invalid env env.networkName)

/-- Witness for `invalid_network_iff_missing_source`: a network exposing only
a junction-typed source fails as invalid input naming the network, with no
step performed. -/
theorem invalid_network_iff_missing_source_witness :
    (computeAdjacencyList (RunEnv.mk [NetworkSource.mk "J" "JunctionFeature"]
        "net" [] "out" "adj.dbf" [] [])).2
      = Except.error (RunError.invalidInput "net")
    ∧ (computeAdjacencyList (RunEnv.mk [NetworkSource.mk "J" "JunctionFeature"]
        "net" [] "out" "adj.dbf" [] [])).1
      = ⟨mkdirAux (RunEnv.mk [NetworkSource.mk "J" "JunctionFeature"]
          "net" [] "out" "adj.dbf" [] []) [], []⟩ :=
  ⟨(invalid_network_iff_missing_source _).1.mpr (Or.inl (by decide)),
   (invalid_network_iff_missing_source _).2 (Or.inl (by decide))⟩

/-- C9: when the first input point already carries every network-location
field, the location-resolution step is not performed, and when it already
carries the barrier-cost field, the barrier-cost assignment is not performed;
pre-existing state triggers no failure (the run's only failures are the
invalid-network check and an engine failure — `RunError` has no other
constructor, mirroring the absence of any such raise in lines 61-75). -/
theorem preprocessing_steps_skipped (env : RunEnv) :
    (NETWORK_LOCATION_FIELDS.all (fun f => env.firstPointFields.contains f) = true →
      Step.calculateLocations ∉ (computeAdjacencyList env).1.trace)
    ∧ (env.firstPointFields.contains BARRIER_COST_FIELD = true →
      Step.assignCosts ∉ (computeAdjacencyList env).1.trace) := by
  have hcases : (computeAdjacencyList env).1.trace = []
      ∨ ∀ s : Step, (∀ j, s ≠ Step.solveTile j) →
          ((s ∈ (computeAdjacencyList env).1.trace) ↔ s ∈ preTrace env) := by
    by_cases h1 : (findSourceFeatures env.sources).1 = none
    · left
      simp [computeAdjacencyList, h1]
    · by_cases h2 : (findSourceFeatures env.sources).2 = none
      · left
        simp [computeAdjacencyList, h1, h2]
      · right
        intro s hs
        have hrun : computeAdjacencyList env = runValidated env := by
          simp [computeAdjacencyList, h1, h2]
        rw [hrun, runValidated, finishRun_trace]
        exact runTiles_trace_mem env _ 0 env.tileSolveOk s hs
  constructor
  · intro h
    cases hcases with
    | inl htr => simp [htr]
    | inr hiff =>
      rw [hiff Step.calculateLocations (fun j => by simp)]
      simp only [preTrace, h, if_true, List.nil_append]
      split <;> simp
  · intro h
    cases hcases with
    | inl htr => simp [htr]
    | inr hiff =>
      rw [hiff Step.assignCosts (fun j => by simp)]
      simp only [preTrace, h, if_true, List.append_nil]
      split <;> simp

/-- Witness for `preprocessing_steps_skipped`: an input point already carrying
the six network-location fields and the barrier-cost field makes a valid run
skip both preprocessing steps. -/
theorem preprocessing_steps_skipped_witness :
    NETWORK_LOCATION_FIELDS.all
        (fun f => (["SourceID", "SourceOID", "PosAlong", "SideOfEdge", "SnapX",
          "SnapY", "BarrierCos"] : List String).contains f) = true
    ∧ (["SourceID", "SourceOID", "PosAlong", "SideOfEdge", "SnapX", "SnapY",
        "BarrierCos"] : List String).contains BARRIER_COST_FIELD = true
    ∧ Step.calculateLocations ∉ (computeAdjacencyList (RunEnv.mk
        [NetworkSource.mk "E" "EdgeFeature", NetworkSource.mk "J" "JunctionFeature"]
        "net" ["SourceID", "SourceOID", "PosAlong", "SideOfEdge", "SnapX", "SnapY",
          "BarrierCos"] "out" "adj.dbf" [true] [])).1.trace
    ∧ Step.assignCosts ∉ (computeAdjacencyList (RunEnv.mk
        [NetworkSource.mk "E" "EdgeFeature", NetworkSource.mk "J" "JunctionFeature"]
        "net" ["SourceID", "SourceOID", "PosAlong", "SideOfEdge", "SnapX", "SnapY",
          "BarrierCos"] "out" "adj.dbf" [true] [])).1.trace :=
  ⟨by decide, by decide,
   (preprocessing_steps_skipped _).1 (by decide),
   (preprocessing_steps_skipped _).2 (by decide)⟩

/-- C10: the final output path is swept during the stale-artifact deletion
(whatever was there before the run), and a file appears there only through the
final rename after every tile has been solved: a run that fails during some
tile's solve leaves no file at the final output path (only the '~'-suffixed
temporary table can remain), while a completed run leaves the renamed table
there and the temporary gone.  The hypotheses record that the output dbf name
differs from the fixed auxiliary-directory name and from its own '~'-suffixed
temporary name — both hold for any genuine `*.dbf` name, whose temporary is
one character longer. -/
theorem no_final_output_on_solve_failure (env : RunEnv)
    (hname : env.adjDbfName ≠ AUXILIARY_DIR_NAME)
    (htmp : tempAdjDbfName env ≠ env.adjDbfName) :
    (∀ fs, adjDbf env ∉ deleteStale env fs)
    ∧ (∀ i, (computeAdjacencyList env).2 = Except.error (RunError.solveFailed i) →
        adjDbf env ∉ (computeAdjacencyList env).1.fs)
    ∧ ((computeAdjacencyList env).2 = Except.ok () →
        adjDbf env ∈ (computeAdjacencyList env).1.fs
        ∧ tempAdjDbf env ∉ (computeAdjacencyList env).1.fs) := by
  have hstale : adjDbf env ∈ staleArtifacts env := by
    simp [staleArtifacts]
  have hdel : ∀ fs, adjDbf env ∉ deleteStale env fs := by
    intro fs hmem
    rw [deleteStale, mem_foldl_fsDelete] at hmem
    exact hmem.2 hstale
  have hne_part : adjDbf env ≠ partAdjDbf env := by
    simp [adjDbf, partAdjDbf]
  have hne_temp : adjDbf env ≠ tempAdjDbf env := by
    simp only [adjDbf, tempAdjDbf, ne_eq, List.cons.injEq, and_true, not_and]
    intro _ h
    exact htmp h.symm
  have hstart : adjDbf env ∉ createPreLoop env (deleteStale env (mkdirAux env env.fs0)) := by
    intro hmem
    rw [createPreLoop, mem_foldl_fsCreate] at hmem
    rcases hmem with hc | hf
    · simp only [preLoopCreates, List.mem_cons, List.not_mem_nil, or_false] at hc
      rcases hc with h | h | h | h | h | h | h
      · simp [adjDbf, odCostMatrixLayer] at h
      · simp [adjDbf, odCostMatrixLines] at h
      · simp [adjDbf, rasterPath] at h
      · simp [adjDbf, polygonsShp] at h
      · exact hne_temp h
      · simp [adjDbf, polygonsLayerPath] at h
      · simp [adjDbf, inputPointsLayerPath] at h
    · exact hdel _ hf
  refine ⟨hdel, ?_, ?_⟩
  · intro i hi
    by_cases h1 : (findSourceFeatures env.sources).1 = none
    · have : (computeAdjacencyList env).2
          = Except.error (RunError.invalidInput env.networkName) := by
        simp [computeAdjacencyList, h1]
      rw [this] at hi
      simp at hi
    · by_cases h2 : (findSourceFeatures env.sources).2 = none
      · have : (computeAdjacencyList env).2
            = Except.error (RunError.invalidInput env.networkName) := by
          simp [computeAdjacencyList, h1, h2]
        rw [this] at hi
        simp at hi
      · have hrun : computeAdjacencyList env = runValidated env := by
          simp [computeAdjacencyList, h1, h2]
        rw [hrun, runValidated] at hi ⊢
        have hnin : adjDbf env ∉ (runTiles env
            ⟨createPreLoop env (deleteStale env (mkdirAux env env.fs0)), preTrace env⟩
            0 env.tileSolveOk).1.fs := by
          rw [runTiles_fs_mem env _ 0 env.tileSolveOk _ hne_part]
          exact hstart
        generalize hrt : runTiles env
            ⟨createPreLoop env (deleteStale env (mkdirAux env env.fs0)), preTrace env⟩
            0 env.tileSolveOk = r at hi hnin ⊢
        obtain ⟨st, oerr⟩ := r
        cases oerr with
        | none =>
          exact absurd hi (by simp [finishRun])
        | some e =>
          exact hnin
  · intro hok
    by_cases h1 : (findSourceFeatures env.sources).1 = none
    · have : (computeAdjacencyList env).2
          = Except.error (RunError.invalidInput env.networkName) := by
        simp [computeAdjacencyList, h1]
      rw [this] at hok
      simp at hok
    · by_cases h2 : (findSourceFeatures env.sources).2 = none
      · have : (computeAdjacencyList env).2
            = Except.error (RunError.invalidInput env.networkName) := by
          simp [computeAdjacencyList, h1, h2]
        rw [this] at hok
        simp at hok
      · have hrun : computeAdjacencyList env = runValidated env := by
          simp [computeAdjacencyList, h1, h2]
        rw [hrun, runValidated] at hok ⊢
        generalize hrt : runTiles env
            ⟨createPreLoop env (deleteStale env (mkdirAux env env.fs0)), preTrace env⟩
            0 env.tileSolveOk = r at hok ⊢
        obtain ⟨st, oerr⟩ := r
        cases oerr with
        | some e =>
          exact absurd hok (by simp [finishRun])
        | none =>
          constructor
          · show adjDbf env ∈ (cleanupArtifacts env).foldl fsDelete
              (fsCreate (fsDelete st.fs (tempAdjDbf env)) (adjDbf env))
            rw [mem_foldl_fsDelete]
            refine ⟨(mem_fsCreate _ _ _).mpr (Or.inl rfl), ?_⟩
            intro hc
            simp only [cleanupArtifacts, List.mem_cons, List.not_mem_nil, or_false] at hc
            rcases hc with h | h | h | h | h | h | h
            · simp [adjDbf, odCostMatrixLayer] at h
            · exact hne_part h
            · simp [adjDbf, polygonsShp] at h
            · simp [adjDbf, rasterPath] at h
            · simp [adjDbf, polygonsLayerPath] at h
            · simp [adjDbf, inputPointsLayerPath] at h
            · exact hname (by simpa [adjDbf, auxiliaryDir] using h)
          · show tempAdjDbf env ∉ (cleanupArtifacts env).foldl fsDelete
              (fsCreate (fsDelete st.fs (tempAdjDbf env)) (adjDbf env))
            rw [mem_foldl_fsDelete, mem_fsCreate]
            rintro ⟨h | h, -⟩
            · exact hne_temp h.symm
            · simp [fsDelete] at h

/-- Witness for `no_final_output_on_solve_failure`: output name
`adjacency.dbf` (temporary `adjacency~.dbf`), one successful tile then a
failing solve, with a stale file already sitting at the final output path. -/
theorem no_final_output_on_solve_failure_witness :
    ("adjacency.dbf" : String) ≠ AUXILIARY_DIR_NAME
    ∧ tempAdjDbfName (RunEnv.mk
        [NetworkSource.mk "E" "EdgeFeature", NetworkSource.mk "J" "JunctionFeature"]
        "net" [] "out" "adjacency.dbf" [true, false]
        [["out", "adjacency.dbf"]]) ≠ "adjacency.dbf"
    ∧ ((∀ fs, adjDbf (RunEnv.mk
          [NetworkSource.mk "E" "EdgeFeature", NetworkSource.mk "J" "JunctionFeature"]
          "net" [] "out" "adjacency.dbf" [true, false]
          [["out", "adjacency.dbf"]]) ∉ deleteStale (RunEnv.mk
          [NetworkSource.mk "E" "EdgeFeature", NetworkSource.mk "J" "JunctionFeature"]
          "net" [] "out" "adjacency.dbf" [true, false]
          [["out", "adjacency.dbf"]]) fs)
      ∧ (∀ i, (computeAdjacencyList (RunEnv.mk
            [NetworkSource.mk "E" "EdgeFeature", NetworkSource.mk "J" "JunctionFeature"]
            "net" [] "out" "adjacency.dbf" [true, false]
            [["out", "adjacency.dbf"]])).2
            = Except.error (RunError.solveFailed i) →
          adjDbf (RunEnv.mk
            [NetworkSource.mk "E" "EdgeFeature", NetworkSource.mk "J" "JunctionFeature"]
            "net" [] "out" "adjacency.dbf" [true, false]
            [["out", "adjacency.dbf"]]) ∉ (computeAdjacencyList (RunEnv.mk
            [NetworkSource.mk "E" "EdgeFeature", NetworkSource.mk "J" "JunctionFeature"]
            "net" [] "out" "adjacency.dbf" [true, false]
            [["out", "adjacency.dbf"]])).1.fs)
      ∧ ((computeAdjacencyList (RunEnv.mk
            [NetworkSource.mk "E" "EdgeFeature", NetworkSource.mk "J" "JunctionFeature"]
            "net" [] "out" "adjacency.dbf" [true, false]
            [["out", "adjacency.dbf"]])).2 = Except.ok () →
          adjDbf (RunEnv.mk
            [NetworkSource.mk "E" "EdgeFeature", NetworkSource.mk "J" "JunctionFeature"]
            "net" [] "out" "adjacency.dbf" [true, false]
            [["out", "adjacency.dbf"]]) ∈ (computeAdjacencyList (RunEnv.mk
            [NetworkSource.mk "E" "EdgeFeature", NetworkSource.mk "J" "JunctionFeature"]
            "net" [] "out" "adjacency.dbf" [true, false]
            [["out", "adjacency.dbf"]])).1.fs
          ∧ tempAdjDbf (RunEnv.mk
            [NetworkSource.mk "E" "EdgeFeature", NetworkSource.mk "J" "JunctionFeature"]
            "net" [] "out" "adjacency.dbf" [true, false]
            [["out", "adjacency.dbf"]]) ∉ (computeAdjacencyList (RunEnv.mk
            [NetworkSource.mk "E" "EdgeFeature", NetworkSource.mk "J" "JunctionFeature"]
            "net" [] "out" "adjacency.dbf" [true, false]
            [["out", "adjacency.dbf"]])).1.fs)) :=
  ⟨by decide, by decide,
    no_final_output_on_solve_failure _ (by decide) (by decide)⟩

end UNA
